import Mathlib

/-!
Verification of the lead-data processing pipeline
(`src/Lead_data_processor.py`).

The program manipulates pandas DataFrames.  We embed a DataFrame as a
`Table`: a list of column names plus a list of rows, where each row is an
association list from column name to scalar `Value`.  Reading a column that
the row does not carry yields `Value.missing` (pandas fills absent columns
with NaN on `concat`, and a cell can itself hold NaN).

Equality conventions of pandas that the embedding mirrors:
* `drop_duplicates` and `isin` are hash based: NaN compares equal to NaN
  there, and Python booleans compare equal to the numbers 1/0
  (`hash True = hash 1`, `True == 1`).  Key extraction therefore
  canonicalises booleans to numbers (`canon`) and keeps `missing` as a
  value equal only to itself.
* The element-wise comparisons `df[open] == True` / `== False` used by the
  splitter follow plain Python `==`: NaN and strings match neither, while
  the numbers 1/0 match True/False respectively (`pyTrue` / `pyFalse`).
-/

/-- A scalar cell value of a table: string, integer, boolean, or missing
(pandas NaN). -/
inductive Value where
  | str (s : String)
  | num (n : Int)
  | boolV (b : Bool)
  | missing
deriving DecidableEq, Repr

/-- A row: an association list from column name to value. -/
abbrev Row := List (String × Value)

/-- A DataFrame: ordered column names and ordered rows. -/
structure Table where
  cols : List String
  rows : List Row
deriving DecidableEq, Repr

/-- Value of column `c` in row `r`; `missing` when the row has no such
entry (pandas NaN fill). -/
def rowVal (r : Row) (c : String) : Value :=
  match r.find? (fun p => p.1 == c) with
  | some p => p.2
  | none => Value.missing

/-- Canonical form used by pandas hash-based matching
(`drop_duplicates`, `isin`): Python `True`/`False` hash and compare equal
to `1`/`0`, so booleans are canonicalised to numbers; every other value
only equals itself (NaN equals NaN in these hash-based operations). -/
def canon : Value → Value
  | Value.boolV true => Value.num 1
  | Value.boolV false => Value.num 0
  | v => v

/-- The identity-key value of a row for key columns `ks`. -/
def keyVals (ks : List String) (r : Row) : List Value :=
  ks.map (fun c => canon (rowVal r c))

/-- Pandas `drop_duplicates(subset=ks, keep=first)`: keep a row when its key was
not seen before, scanning in input order. -/
def dropDup (k : Row → List Value) (seen : List (List Value)) :
    List Row → List Row
  | [] => []
  | r :: rs =>
    if k r ∈ seen then dropDup k seen rs
    else r :: dropDup k (k r :: seen) rs

/-- The deduplication step shared by `process_and_combine` (lines 29-38),
`process_and_clean_single` (lines 62-70) and `check_and_clean`
(lines 100-108): choose the key columns by availability, `none` when
neither key column exists (the code reports an error and bails out). -/
def dedup (t : Table) : Option Table :=
  if "full_name" ∈ t.cols ∧ "linkedin" ∈ t.cols then
    some ⟨t.cols, dropDup (keyVals ["full_name", "linkedin"]) [] t.rows⟩
  else if "full_name" ∈ t.cols then
    some ⟨t.cols, dropDup (keyVals ["full_name"]) [] t.rows⟩
  else if "linkedin" ∈ t.cols then
    some ⟨t.cols, dropDup (keyVals ["linkedin"]) [] t.rows⟩
  else none

/-- The key columns the dedup chain selects for a given column set. -/
def keyCols (cols : List String) : List String :=
  if "full_name" ∈ cols ∧ "linkedin" ∈ cols then ["full_name", "linkedin"]
  else if "full_name" ∈ cols then ["full_name"]
  else if "linkedin" ∈ cols then ["linkedin"]
  else []

/-- The key reconciliation policy of the spec (section 4.3), written from
the spec words: composite pair when both tables have both columns, else
`full_name` when both have it, else `linkedin` when both have it, else no
compatible key. -/
def subKeyCols (refCols cCols : List String) : Option (List String) :=
  if "full_name" ∈ refCols ∧ "linkedin" ∈ refCols ∧
      "full_name" ∈ cCols ∧ "linkedin" ∈ cCols then
    some ["full_name", "linkedin"]
  else if "full_name" ∈ refCols ∧ "full_name" ∈ cCols then
    some ["full_name"]
  else if "linkedin" ∈ refCols ∧ "linkedin" ∈ cCols then
    some ["linkedin"]
  else none

/-- Reference subtraction of `check_and_clean` (lines 111-119): keep the
candidate rows whose key is not among the reference keys, the key chosen
by the same branch chain as the source; `none` on the final
columns-mismatch branch. -/
def subtract (ref c : Table) : Option Table :=
  if "full_name" ∈ ref.cols ∧ "linkedin" ∈ ref.cols ∧
      "full_name" ∈ c.cols ∧ "linkedin" ∈ c.cols then
    some ⟨c.cols, c.rows.filter (fun r =>
      decide (keyVals ["full_name", "linkedin"] r ∉
        ref.rows.map (keyVals ["full_name", "linkedin"])))⟩
  else if "full_name" ∈ ref.cols ∧ "full_name" ∈ c.cols then
    some ⟨c.cols, c.rows.filter (fun r =>
      decide (keyVals ["full_name"] r ∉ ref.rows.map (keyVals ["full_name"])))⟩
  else if "linkedin" ∈ ref.cols ∧ "linkedin" ∈ c.cols then
    some ⟨c.cols, c.rows.filter (fun r =>
      decide (keyVals ["linkedin"] r ∉ ref.rows.map (keyVals ["linkedin"])))⟩
  else none

/-- Python element-wise `v == True` as evaluated by
`df[df[open] == True]` (line 143): a boolean matches itself, the numbers
equal to 1 match, strings and NaN never match. -/
def pyTrue : Value → Bool
  | Value.boolV b => b
  | Value.num n => n == 1
  | _ => false

/-- Python element-wise `v == False` (line 144). -/
def pyFalse : Value → Bool
  | Value.boolV b => !b
  | Value.num n => n == 0
  | _ => false

/-- The split of `inmail_and_invite_separator` (lines 139-146): `none`
when the `open` column is absent (the code reports an error and skips the
file), otherwise the pair of the `== True` and `== False` selections. -/
def partitionOpen (t : Table) : Option (Table × Table) :=
  if "open" ∈ t.cols then
    some (⟨t.cols, t.rows.filter (fun r => pyTrue (rowVal r "open"))⟩,
          ⟨t.cols, t.rows.filter (fun r => pyFalse (rowVal r "open"))⟩)
  else none

/-- A streamlit message emitted while processing. -/
inductive Msg where
  | error (s : String)
  | warning (s : String)
  | info (s : String)
deriving DecidableEq, Repr

/-- Whether a message is a warning (`st.warning`). -/
def Msg.isWarning : Msg → Bool
  | Msg.warning _ => true
  | _ => false

/-- An uploaded file: its declared name and the table its bytes parse to
(`none` when parsing raises, modelling a `pd.read_csv` / `pd.read_excel`
exception). -/
structure File where
  name : String
  table : Option Table
deriving DecidableEq, Repr

instance : Inhabited File := ⟨⟨"", none⟩⟩

/-- Outcome of the extension dispatch plus parse used at the top of every
per-file loop. -/
inductive ReadResult where
  | ok (t : Table)
  | unsupported
  | parseFailed
deriving DecidableEq, Repr

/-- Python `str.endswith(suffix)` over the character lists of the strings. -/
def strEndsWith (s suffix : String) : Bool :=
  suffix.data.isSuffixOf s.data

/-- Extension dispatch (`.csv` then `.xls`/`.xlsx`, else unsupported) and
parse of one uploaded file. -/
def readFile (f : File) : ReadResult :=
  if strEndsWith f.name ".csv" || strEndsWith f.name ".xls" ||
      strEndsWith f.name ".xlsx" then
    match f.table with
    | some t => ReadResult.ok t
    | none => ReadResult.parseFailed
  else ReadResult.unsupported

example : readFile ⟨"a.csv", some ⟨[], []⟩⟩ = ReadResult.ok ⟨[], []⟩ := by decide
example : readFile ⟨"a.txt", some ⟨[], []⟩⟩ = ReadResult.unsupported := by decide
example : readFile ⟨"b.xlsx", none⟩ = ReadResult.parseFailed := by decide

/-- Python `os.path.splitext(s)[0]`: drop the suffix from the last dot, provided
some earlier character of the name is not a dot. -/
def splitextBase (s : String) : String :=
  let cs := s.toList
  match ((cs.enum.filter (fun p => p.2 == '.')).map (fun p => p.1)).getLast? with
  | some i => if (cs.take i).any (fun c => c != '.') then String.mk (cs.take i) else s
  | none => s

example : splitextBase "a.csv" = "a" := by rfl
example : splitextBase "a.b.csv" = "a.b" := by rfl
example : splitextBase ".csv" = ".csv" := by rfl
example : splitextBase "abc" = "abc" := by rfl

example :
    dedup ⟨["full_name", "linkedin"],
      [[("full_name", Value.str "A"), ("linkedin", Value.str "x")],
       [("full_name", Value.str "A"), ("linkedin", Value.str "x")]]⟩ =
    some ⟨["full_name", "linkedin"],
      [[("full_name", Value.str "A"), ("linkedin", Value.str "x")]]⟩ := by decide

/-- Union of column lists in order of first appearance, as `pd.concat`
(default `sort=False`) produces it. -/
def unionCols (a b : List String) : List String :=
  a ++ b.filter (fun c => decide (c ∉ a))

/-- Pandas `pd.concat([a, b], ignore_index=True)`: rows appended, columns
unioned; a row lacking a column reads as `missing` via `rowVal`. -/
def concatTables (a b : Table) : Table :=
  ⟨unionCols a.cols b.cols, a.rows ++ b.rows⟩

/-- The initial `pd.DataFrame()` accumulator of `process_and_combine`. -/
def emptyTable : Table := ⟨[], []⟩

/-- The accumulation loop of `process_and_combine` (lines 11-23): an
unsupported extension is reported and skipped, a parse failure is reported
and aborts the whole run (`return None`), a parsed table is concatenated. -/
def combineAux (acc : Table) : List File → Option Table × List Msg
  | [] => (some acc, [])
  | f :: fs =>
    match readFile f with
    | ReadResult.unsupported =>
      let rest := combineAux acc fs
      (rest.1, Msg.error ("Unsupported file type: " ++ f.name) :: rest.2)
    | ReadResult.parseFailed =>
      (none, [Msg.error ("Error processing " ++ f.name)])
    | ReadResult.ok t => combineAux (concatTables acc t) fs

/-- The tail of `process_and_combine` (lines 24-38): warn and stop when
the combined table is empty, then deduplicate (error and stop when no
identity column exists). -/
def combineFinish : Option Table × List Msg → Option Table × List Msg
  | (none, ms) => (none, ms)
  | (some d, ms) =>
    if d.rows.isEmpty then (none, ms ++ [Msg.warning "No data to process."])
    else
      match dedup d with
      | some d2 => (some d2, ms)
      | none =>
        (none, ms ++ [Msg.error
          "Neither full_name nor linkedin columns found. Cannot remove duplicates."])

/-- Function `process_and_combine` (lines 8-38): the accumulation loop followed by
the empty check and the deduplication. -/
def processAndCombine (files : List File) : Option Table × List Msg :=
  combineFinish (combineAux emptyTable files)

/-- Function `process_and_clean_single` (lines 50-74): read one file and
deduplicate it, reporting errors. -/
def processAndCleanSingle (f : File) : Option Table × List Msg :=
  match readFile f with
  | ReadResult.unsupported =>
    (none, [Msg.error ("Unsupported file type: " ++ f.name)])
  | ReadResult.parseFailed =>
    (none, [Msg.error ("Error processing " ++ f.name)])
  | ReadResult.ok t =>
    match dedup t with
    | some t2 => (some t2, [])
    | none =>
      (none, [Msg.error
        "Neither full_name nor linkedin columns found. Cannot remove duplicates."])

/-- The Clean Single Files loop of `main` (lines 177-181): one download
entry `{base}_CLEAN.csv` per file whose cleaned table is nonempty. -/
def cleanSingleFlow : List File → List (String × Table) × List Msg
  | [] => ([], [])
  | f :: fs =>
    ((match (processAndCleanSingle f).1 with
      | some t => if t.rows.isEmpty then [] else
          [(splitextBase f.name ++ "_CLEAN.csv", t)]
      | none => []) ++ (cleanSingleFlow fs).1,
     (processAndCleanSingle f).2 ++ (cleanSingleFlow fs).2)

/-- One iteration of the `check_and_clean` loop (lines 89-123): read,
deduplicate within the file, then subtract the reference; every failure
reports an error and skips the file (`continue`). -/
def processCheckFile (ref : Table) (f : File) : Option Table × List Msg :=
  match readFile f with
  | ReadResult.unsupported =>
    (none, [Msg.error ("Unsupported file type: " ++ f.name)])
  | ReadResult.parseFailed =>
    (none, [Msg.error ("Error processing " ++ f.name)])
  | ReadResult.ok t =>
    match dedup t with
    | none =>
      (none, [Msg.error
        "Neither full_name nor linkedin columns found in check file."])
    | some t2 =>
      match subtract ref t2 with
      | none =>
        (none, [Msg.error "Columns mismatch between reference and check files."])
      | some t3 => (some t3, [])

/-- Function `check_and_clean` (lines 86-124): the successfully processed tables in
order (skipped files contribute nothing) plus all reported messages. -/
def checkAndClean (ref : Table) : List File → List Table × List Msg
  | [] => ([], [])
  | f :: fs =>
    ((processCheckFile ref f).1.toList ++ (checkAndClean ref fs).1,
     (processCheckFile ref f).2 ++ (checkAndClean ref fs).2)

/-- The zip-building loop of `main` (lines 210-214): enumerate the cleaned
tables, skip empty ones, and name each entry after
`files_to_check[i].name` where `i` is the index in the cleaned list. -/
def checkedZipEntries (ref : Table) (files : List File) :
    List (String × Table) :=
  ((checkAndClean ref files).1.enum).filterMap (fun p =>
    if p.2.rows.isEmpty then none
    else some (splitextBase (files.getD p.1 default).name ++
      "_CHECKED_CLEANED.csv", p.2))

/-- One iteration of `inmail_and_invite_separator` (lines 129-149): read,
then partition on the `open` column; failures report an error and skip. -/
def processSplitFile (f : File) : Option (Table × Table) × List Msg :=
  match readFile f with
  | ReadResult.unsupported =>
    (none, [Msg.error ("Unsupported file type: " ++ f.name)])
  | ReadResult.parseFailed =>
    (none, [Msg.error ("Error processing " ++ f.name)])
  | ReadResult.ok t =>
    match partitionOpen t with
    | none => (none, [Msg.error ("Column open not found in " ++ f.name)])
    | some p => (some p, [])

/-- The download entries built for one split file (lines 238-247):
`{base}_Inmail.csv` for the nonempty true part and `{base}_Invite.csv`
for the nonempty false part. -/
def splitEntriesOf (f : File) (p : Table × Table) : List (String × Table) :=
  (if p.1.rows.isEmpty then [] else
    [(splitextBase f.name ++ "_Inmail.csv", p.1)]) ++
  (if p.2.rows.isEmpty then [] else
    [(splitextBase f.name ++ "_Invite.csv", p.2)])

/-- The Inmail/Invite Separator flow (lines 234-247): download entries and
messages over a batch of files. -/
def splitFlow : List File → List (String × Table) × List Msg
  | [] => ([], [])
  | f :: fs =>
    ((match (processSplitFile f).1 with
      | some p => splitEntriesOf f p
      | none => []) ++ (splitFlow fs).1,
     (processSplitFile f).2 ++ (splitFlow fs).2)

/-! ### Helper lemmas -/

theorem dropDup_sublist (k : Row → List Value) (seen : List (List Value)) :
    ∀ rs : List Row, (dropDup k seen rs).Sublist rs := by
  intro rs
  induction rs generalizing seen with
  | nil => simp [dropDup]
  | cons r rs ih =>
    by_cases h : k r ∈ seen
    · simpa [dropDup, h] using (ih seen).trans (List.sublist_cons_self r rs)
    · simpa [dropDup, h] using (ih (k r :: seen)).cons₂ r

theorem dropDup_first (k : Row → List Value) (seen : List (List Value))
    (rs : List Row) :
    ∀ r2 ∈ dropDup k seen rs, k r2 ∉ seen ∧
      rs.find? (fun x => decide (k x = k r2)) = some r2 := by
  induction rs generalizing seen with
  | nil => simp [dropDup]
  | cons r rs ih =>
    intro r2 hr2
    by_cases h : k r ∈ seen
    · simp only [dropDup, if_pos h] at hr2
      obtain ⟨hns, hfind⟩ := ih seen r2 hr2
      have hne : ¬ (k r = k r2) := fun e => hns (e ▸ h)
      refine ⟨hns, ?_⟩
      rw [List.find?_cons_of_neg, hfind]
      simpa using hne
    · simp only [dropDup, if_neg h] at hr2
      rcases List.mem_cons.mp hr2 with rfl | hr2
      · exact ⟨h, by rw [List.find?_cons_of_pos] ; simp⟩
      · obtain ⟨hns, hfind⟩ := ih (k r :: seen) r2 hr2
        have hne : ¬ (k r = k r2) := fun e => hns (by simp [e])
        have hns2 : k r2 ∉ seen := fun hmem => hns (by simp [hmem])
        refine ⟨hns2, ?_⟩
        rw [List.find?_cons_of_neg, hfind]
        simpa using hne

theorem dropDup_complete (k : Row → List Value) (seen : List (List Value))
    (rs : List Row) :
    ∀ r ∈ rs, k r ∉ seen → ∃ r2 ∈ dropDup k seen rs, k r2 = k r := by
  induction rs generalizing seen with
  | nil => simp
  | cons r rs ih =>
    intro q hq hqs
    by_cases h : k r ∈ seen
    · rcases List.mem_cons.mp hq with rfl | hq
      · exact absurd h hqs
      · obtain ⟨r2, hr2, hk⟩ := ih seen q hq hqs
        exact ⟨r2, by simpa [dropDup, h] using hr2, hk⟩
    · rcases List.mem_cons.mp hq with rfl | hq
      · exact ⟨q, by simp [dropDup, h], rfl⟩
      · by_cases he : k q = k r
        · exact ⟨r, by simp [dropDup, h], he.symm⟩
        · have : k q ∉ (k r :: seen) := by simp [he, hqs]
          obtain ⟨r2, hr2, hk⟩ := ih (k r :: seen) q hq this
          exact ⟨r2, by simp [dropDup, h, hr2], hk⟩

theorem dropDup_keys_nodup (k : Row → List Value) (seen : List (List Value))
    (rs : List Row) : ((dropDup k seen rs).map k).Nodup := by
  induction rs generalizing seen with
  | nil => simp [dropDup]
  | cons r rs ih =>
    by_cases h : k r ∈ seen
    · simpa [dropDup, h] using ih seen
    · simp only [dropDup, if_neg h, List.map_cons, List.nodup_cons]
      refine ⟨?_, ih (k r :: seen)⟩
      intro hmem
      obtain ⟨r2, hr2, hk⟩ := List.mem_map.mp hmem
      have := (dropDup_first k (k r :: seen) rs r2 hr2).1
      exact this (by simp [hk])

theorem dedup_eq_of_key (t : Table)
    (h : "full_name" ∈ t.cols ∨ "linkedin" ∈ t.cols) :
    dedup t = some ⟨t.cols, dropDup (keyVals (keyCols t.cols)) [] t.rows⟩ := by
  unfold dedup keyCols
  split_ifs with h1 h2 h3 <;> first | rfl | simp_all

theorem dedup_cols_rows (t t2 : Table) (h : dedup t = some t2) :
    t2.cols = t.cols ∧ t2.rows.Sublist t.rows := by
  unfold dedup at h
  split_ifs at h <;> cases h <;>
    exact ⟨rfl, dropDup_sublist _ _ _⟩

theorem subtract_eq (R C : Table) :
    subtract R C = (subKeyCols R.cols C.cols).map (fun ks =>
      ⟨C.cols, C.rows.filter (fun r =>
        decide (keyVals ks r ∉ R.rows.map (keyVals ks)))⟩) := by
  unfold subtract subKeyCols
  split_ifs <;> rfl

/-! ### Claim theorems -/

/-- C1: for every table that has at least one of the columns `full_name`
and `linkedin`, deduplication succeeds, preserves all columns, returns
its rows as a subsequence of the input rows (first occurrences in input
order), keeps the identity keys pairwise distinct while covering every
input key, and two rows both missing a key-column value compare equal on
that column (the key component of both is `missing`). -/
theorem dedup_unique_first_per_key (t : Table)
    (h : "full_name" ∈ t.cols ∨ "linkedin" ∈ t.cols) :
    ∃ t2 : Table, dedup t = some t2 ∧
      t2.cols = t.cols ∧
      t2.rows.Sublist t.rows ∧
      (t2.rows.map (keyVals (keyCols t.cols))).Nodup ∧
      (∀ r ∈ t.rows, ∃ r2 ∈ t2.rows,
        keyVals (keyCols t.cols) r2 = keyVals (keyCols t.cols) r) ∧
      (∀ r2 ∈ t2.rows,
        t.rows.find? (fun x =>
          decide (keyVals (keyCols t.cols) x = keyVals (keyCols t.cols) r2)) =
          some r2) ∧
      (∀ r1 r2 : Row, rowVal r1 "linkedin" = Value.missing →
        rowVal r2 "linkedin" = Value.missing →
        rowVal r1 "full_name" = rowVal r2 "full_name" →
        keyVals (keyCols t.cols) r1 = keyVals (keyCols t.cols) r2) := by
  refine ⟨⟨t.cols, dropDup (keyVals (keyCols t.cols)) [] t.rows⟩,
    dedup_eq_of_key t h, rfl, dropDup_sublist _ _ _,
    dropDup_keys_nodup _ _ _, ?_, ?_, ?_⟩
  · intro r hr
    exact dropDup_complete _ [] t.rows r hr (by simp)
  · intro r2 hr2
    exact (dropDup_first _ [] t.rows r2 hr2).2
  · intro r1 r2 e1 e2 e3
    unfold keyVals keyCols
    split_ifs <;> simp [e1, e2, e3]

/-- Concrete table used to witness C1. -/
def tC1 : Table :=
  ⟨["full_name", "linkedin"],
    [[("full_name", Value.str "A"), ("linkedin", Value.str "x")],
     [("full_name", Value.str "A"), ("linkedin", Value.str "x")],
     [("full_name", Value.str "B")]]⟩

/-- Witness for C1 at a concrete table. -/
theorem dedup_unique_first_per_key_witness :
    ∃ t2 : Table, dedup tC1 = some t2 ∧ t2.cols = tC1.cols ∧
      t2.rows.Sublist tC1.rows := by
  obtain ⟨t2, h1, h2, h3, -⟩ :=
    dedup_unique_first_per_key tC1 (Or.inl (by decide))
  exact ⟨t2, h1, h2, h3⟩

/-- C2: whenever subtraction succeeds, a compatible key shape exists and
no result row has an identity-key value (under the reconciled key) that
appears among the reference rows. -/
theorem subtract_removes_reference_keys (R C t2 : Table)
    (h : subtract R C = some t2) :
    ∃ ks, subKeyCols R.cols C.cols = some ks ∧
      ∀ r ∈ t2.rows, keyVals ks r ∉ R.rows.map (keyVals ks) := by
  unfold subtract at h
  split_ifs at h with h1 h2 h3
  · injection h with h4
    subst h4
    refine ⟨["full_name", "linkedin"],
      by unfold subKeyCols; rw [if_pos h1], ?_⟩
    intro r hr
    simpa using (List.mem_filter.mp hr).2
  · injection h with h4
    subst h4
    refine ⟨["full_name"],
      by unfold subKeyCols; rw [if_neg h1, if_pos h2], ?_⟩
    intro r hr
    simpa using (List.mem_filter.mp hr).2
  · injection h with h4
    subst h4
    refine ⟨["linkedin"],
      by unfold subKeyCols; rw [if_neg h1, if_neg h2, if_pos h3], ?_⟩
    intro r hr
    simpa using (List.mem_filter.mp hr).2

/-- Concrete reference table used to witness C2 (spec Scenario 2). -/
def refC2 : Table :=
  ⟨["full_name", "linkedin"],
    [[("full_name", Value.str "A"), ("linkedin", Value.str "x")]]⟩

/-- Concrete candidate table used to witness C2 (spec Scenario 2). -/
def candC2 : Table :=
  ⟨["full_name", "linkedin"],
    [[("full_name", Value.str "A"), ("linkedin", Value.str "x")],
     [("full_name", Value.str "B"), ("linkedin", Value.str "y")]]⟩

/-- Witness for C2 at the Scenario 2 tables: subtraction keeps only the
`B`/`y` row and its key is outside the reference keys. -/
theorem subtract_removes_reference_keys_witness :
    ∃ ks, subKeyCols refC2.cols candC2.cols = some ks ∧
      ∀ r ∈ (Table.mk ["full_name", "linkedin"]
        [[("full_name", Value.str "B"), ("linkedin", Value.str "y")]]).rows,
        keyVals ks r ∉ refC2.rows.map (keyVals ks) :=
  subtract_removes_reference_keys refC2 candC2
    ⟨["full_name", "linkedin"],
      [[("full_name", Value.str "B"), ("linkedin", Value.str "y")]]⟩
    (by decide)

/-- C3: the subtraction key is reconciled exactly by the spec policy
`subKeyCols` (composite when both tables have both columns, else
`full_name` when shared, else `linkedin` when shared, else failure), and
in the check batch a candidate whose key shape does not overlap the
reference contributes no output table, one reported error, and the
remaining candidates are still processed. -/
theorem subtract_key_reconciliation :
    (∀ R C : Table, subtract R C = (subKeyCols R.cols C.cols).map (fun ks =>
      ⟨C.cols, C.rows.filter (fun r =>
        decide (keyVals ks r ∉ R.rows.map (keyVals ks)))⟩)) ∧
    (∀ (ref : Table) (f : File) (fs : List File) (t : Table),
      readFile f = ReadResult.ok t →
      ("full_name" ∈ t.cols ∨ "linkedin" ∈ t.cols) →
      subKeyCols ref.cols t.cols = none →
      checkAndClean ref (f :: fs) =
        ((checkAndClean ref fs).1,
         Msg.error "Columns mismatch between reference and check files." ::
           (checkAndClean ref fs).2)) := by
  refine ⟨subtract_eq, ?_⟩
  intro ref f fs t hread hkey hnone
  have hd := dedup_eq_of_key t hkey
  have hsub : subtract ref
      ⟨t.cols, dropDup (keyVals (keyCols t.cols)) [] t.rows⟩ = none := by
    rw [subtract_eq]
    show ((subKeyCols ref.cols t.cols).map _) = none
    rw [hnone]
    rfl
  simp [checkAndClean, processCheckFile, hread, hd, hsub]

/-- Concrete reference (only `full_name`) used to witness C3. -/
def refC3 : Table := ⟨["full_name"], [[("full_name", Value.str "A")]]⟩

/-- Concrete candidate file (only `linkedin`) used to witness C3. -/
def fileC3 : File :=
  ⟨"c.csv", some ⟨["linkedin"], [[("linkedin", Value.str "x")]]⟩⟩

/-- Witness for C3: Scenario 3 of the spec, a `linkedin`-only candidate
checked against a `full_name`-only reference yields no output and one
mismatch error. -/
theorem subtract_key_reconciliation_witness :
    checkAndClean refC3 [fileC3] =
      ([], [Msg.error "Columns mismatch between reference and check files."]) := by
  have h := subtract_key_reconciliation.2 refC3 fileC3 []
    ⟨["linkedin"], [[("linkedin", Value.str "x")]]⟩
    (by decide) (Or.inr (by decide)) (by decide)
  rw [h]
  decide

/-- C4: with both key columns in both tables, subtraction succeeds and a
candidate row is removed exactly when some reference row matches it on
both `full_name` and `linkedin` simultaneously; in particular a candidate
row matching some reference row on `full_name` but differing from every
`full_name`-matching reference row on `linkedin` is kept.  Field equality
is pandas matching equality (`canon`). -/
theorem subtract_composite_exact_match (R C : Table)
    (h1 : "full_name" ∈ R.cols) (h2 : "linkedin" ∈ R.cols)
    (h3 : "full_name" ∈ C.cols) (h4 : "linkedin" ∈ C.cols) :
    ∃ t2 : Table, subtract R C = some t2 ∧
      (∀ r ∈ C.rows, (r ∈ t2.rows ↔
        ¬ ∃ q ∈ R.rows,
          canon (rowVal q "full_name") = canon (rowVal r "full_name") ∧
          canon (rowVal q "linkedin") = canon (rowVal r "linkedin"))) ∧
      (∀ r ∈ C.rows,
        (∀ q ∈ R.rows,
          canon (rowVal q "full_name") = canon (rowVal r "full_name") →
          canon (rowVal q "linkedin") ≠ canon (rowVal r "linkedin")) →
        r ∈ t2.rows) := by
  have he : subtract R C = some ⟨C.cols, C.rows.filter (fun r =>
      decide (keyVals ["full_name", "linkedin"] r ∉
        R.rows.map (keyVals ["full_name", "linkedin"])))⟩ := by
    unfold subtract
    rw [if_pos ⟨h1, h2, h3, h4⟩]
  have hiff : ∀ r ∈ C.rows,
      (r ∈ (C.rows.filter (fun r =>
        decide (keyVals ["full_name", "linkedin"] r ∉
          R.rows.map (keyVals ["full_name", "linkedin"])))) ↔
      ¬ ∃ q ∈ R.rows,
        canon (rowVal q "full_name") = canon (rowVal r "full_name") ∧
        canon (rowVal q "linkedin") = canon (rowVal r "linkedin")) := by
    intro r hr
    constructor
    · intro hmem hex
      have hdec := (List.mem_filter.mp hmem).2
      simp only [decide_eq_true_eq] at hdec
      apply hdec
      obtain ⟨q, hq, e1, e2⟩ := hex
      refine List.mem_map.mpr ⟨q, hq, ?_⟩
      simp [keyVals, e1, e2]
    · intro hnex
      refine List.mem_filter.mpr ⟨hr, ?_⟩
      simp only [decide_eq_true_eq]
      intro hmem
      obtain ⟨q, hq, hkeq⟩ := List.mem_map.mp hmem
      simp only [keyVals, List.map_cons, List.map_nil, List.cons.injEq,
        and_true] at hkeq
      exact hnex ⟨q, hq, hkeq.1, hkeq.2⟩
  refine ⟨_, he, hiff, ?_⟩
  intro r hr hall
  apply (hiff r hr).mpr
  rintro ⟨q, hq, e1, e2⟩
  exact hall q hq e1 e2

/-- Concrete reference table used to witness C4. -/
def refC4 : Table :=
  ⟨["full_name", "linkedin"],
    [[("full_name", Value.str "A"), ("linkedin", Value.str "x")]]⟩

/-- Concrete candidate table used to witness C4: same `full_name`,
different `linkedin`. -/
def candC4 : Table :=
  ⟨["full_name", "linkedin"],
    [[("full_name", Value.str "A"), ("linkedin", Value.str "y")]]⟩

/-- Witness for C4: the row matching on `full_name` only is kept. -/
theorem subtract_composite_exact_match_witness :
    ∃ t2 : Table, subtract refC4 candC4 = some t2 ∧
      [("full_name", Value.str "A"), ("linkedin", Value.str "y")] ∈ t2.rows := by
  obtain ⟨t2, he, -, hkeep⟩ := subtract_composite_exact_match refC4 candC4
    (by decide) (by decide) (by decide) (by decide)
  exact ⟨t2, he, hkeep _ (by decide) (by decide)⟩

/-- Row with a numeric `open` value, used against C5. -/
def rowC5 : Row := [("open", Value.num 1)]

/-- Table with a numeric `open` value, used against C5. -/
def tC5 : Table := ⟨["open"], [rowC5]⟩

/-- Counterexample to C5 as stated: a row whose `open` value is the
number 1 (not a strict boolean) lands in the true partition, because the
pandas comparison `open == True` follows Python equality and `1 == True`
holds. -/
theorem partition_numeric_counterexample :
    partitionOpen tC5 = some (⟨["open"], [rowC5]⟩, ⟨["open"], []⟩) ∧
    rowVal rowC5 "open" = Value.num 1 := by decide

/-- C5 amended: partitioning fails when `open` is absent; rows whose
`open` value is a string, missing, or a number other than 1 and 0 appear
in neither partition (numbers equal to 1 or 0 compare equal to
True/False under Python equality and are partitioned). -/
theorem partition_open_amended :
    (∀ t : Table, "open" ∉ t.cols → partitionOpen t = none) ∧
    (∀ t : Table, "open" ∈ t.cols → ∃ p : Table × Table,
      partitionOpen t = some p ∧
      ∀ r ∈ t.rows,
        ((∃ s, rowVal r "open" = Value.str s) ∨
          rowVal r "open" = Value.missing ∨
          (∃ n : Int, rowVal r "open" = Value.num n ∧ n ≠ 1 ∧ n ≠ 0)) →
        r ∉ p.1.rows ∧ r ∉ p.2.rows) := by
  constructor
  · intro t h
    simp [partitionOpen, h]
  · intro t h
    refine ⟨(⟨t.cols, t.rows.filter (fun r => pyTrue (rowVal r "open"))⟩,
      ⟨t.cols, t.rows.filter (fun r => pyFalse (rowVal r "open"))⟩),
      by simp [partitionOpen, h], ?_⟩
    intro r hr hv
    have hb : pyTrue (rowVal r "open") = false ∧
        pyFalse (rowVal r "open") = false := by
      rcases hv with ⟨s, e⟩ | e | ⟨n, e, hn1, hn0⟩ <;>
        simp [pyTrue, pyFalse, e, *]
    have ht := hb.1
    have hf := hb.2
    constructor <;> intro hmem
    · have := (List.mem_filter.mp hmem).2
      rw [ht] at this
      cases this
    · have := (List.mem_filter.mp hmem).2
      rw [hf] at this
      cases this

/-- Witness for the amended C5: a table without an `open` column fails. -/
theorem partition_open_amended_witness :
    partitionOpen ⟨["full_name"], []⟩ = none :=
  partition_open_amended.1 ⟨["full_name"], []⟩ (by decide)

/-- C8: for every table with an `open` column the partition succeeds,
both parts keep the original columns, their rows are subsequences of the
input rows (no fabricated rows, original relative order), and no row is
in both parts. -/
theorem partition_subset_disjoint (t : Table) (h : "open" ∈ t.cols) :
    ∃ p : Table × Table, partitionOpen t = some p ∧
      p.1.rows.Sublist t.rows ∧ p.2.rows.Sublist t.rows ∧
      p.1.cols = t.cols ∧ p.2.cols = t.cols ∧
      ∀ r ∈ p.1.rows, r ∉ p.2.rows := by
  refine ⟨(⟨t.cols, t.rows.filter (fun r => pyTrue (rowVal r "open"))⟩,
    ⟨t.cols, t.rows.filter (fun r => pyFalse (rowVal r "open"))⟩),
    by simp [partitionOpen, h], List.filter_sublist _, List.filter_sublist _,
    rfl, rfl, ?_⟩
  intro r hmem1 hmem2
  have e1 := (List.mem_filter.mp hmem1).2
  have e2 := (List.mem_filter.mp hmem2).2
  cases hv : rowVal r "open" <;> rw [hv] at e1 e2 <;>
    simp [pyTrue, pyFalse] at e1 e2
  · exact absurd e2 (by simp [e1])
  · exact absurd e2 (by simp [e1])

/-- Scenario 4 table: `open` values `[true, false, true]`. -/
def tC8 : Table :=
  ⟨["open"], [[("open", Value.boolV true)], [("open", Value.boolV false)],
    [("open", Value.boolV true)]]⟩

/-- The partition the code produces for `tC8`. -/
def pC8 : Table × Table :=
  (⟨["open"], [[("open", Value.boolV true)], [("open", Value.boolV true)]]⟩,
   ⟨["open"], [[("open", Value.boolV false)]]⟩)

/-- Witness for C8 at Scenario 4: 2 true rows and 1 false row, in the
original relative order. -/
theorem partition_subset_disjoint_witness :
    partitionOpen tC8 = some pC8 ∧ pC8.1.rows.Sublist tC8.rows ∧
      pC8.1.rows.length = 2 ∧ pC8.2.rows.length = 1 := by
  obtain ⟨p, he, hs1, -, -, -, -⟩ := partition_subset_disjoint tC8 (by decide)
  have hp : p = pC8 := by
    have h2 : partitionOpen tC8 = some pC8 := by decide
    rw [he] at h2
    exact Option.some.inj h2
  subst hp
  exact ⟨he, hs1, by decide, by decide⟩

/-- Concrete reference table used for C6. -/
def refC6 : Table := ⟨["full_name"], [[("full_name", Value.str "Z")]]⟩

/-- A file with an unsupported extension, skipped by the check batch. -/
def fileC6a : File := ⟨"a.txt", none⟩

/-- A valid candidate file whose only row is not in the reference. -/
def fileC6b : File :=
  ⟨"b.csv", some ⟨["full_name"], [[("full_name", Value.str "B")]]⟩⟩

/-- C6 evaluation at the failing input: the unsupported `a.txt` is
skipped, so the single cleaned table (derived from `b.csv`) is emitted at
index 0 of the cleaned list, and the zip-building loop names it after
`files_to_check[0].name`, that is `a.txt`: the entry is
`a_CHECKED_CLEANED.csv` although its rows come from `b.csv`. -/
theorem checked_zip_entry_misnamed :
    checkAndClean refC6 [fileC6a, fileC6b] =
      ([⟨["full_name"], [[("full_name", Value.str "B")]]⟩],
       [Msg.error "Unsupported file type: a.txt"]) ∧
    checkedZipEntries refC6 [fileC6a, fileC6b] =
      [("a_CHECKED_CLEANED.csv",
        ⟨["full_name"], [[("full_name", Value.str "B")]]⟩)] ∧
    splitextBase fileC6b.name ++ "_CHECKED_CLEANED.csv" =
      "b_CHECKED_CLEANED.csv" := by decide

/-- Function `process_and_clean_single` only ever reports errors, never warnings. -/
theorem processAndCleanSingle_no_warning (f : File) :
    ∀ m ∈ (processAndCleanSingle f).2, m.isWarning = false := by
  intro m hm
  unfold processAndCleanSingle at hm
  split at hm
  · simp_all [Msg.isWarning]
  · simp_all [Msg.isWarning]
  · split at hm <;> simp_all [Msg.isWarning]

/-- The `check_and_clean` loop body only ever reports errors. -/
theorem processCheckFile_no_warning (ref : Table) (f : File) :
    ∀ m ∈ (processCheckFile ref f).2, m.isWarning = false := by
  intro m hm
  unfold processCheckFile at hm
  split at hm
  · simp_all [Msg.isWarning]
  · simp_all [Msg.isWarning]
  · split at hm
    · simp_all [Msg.isWarning]
    · split at hm <;> simp_all [Msg.isWarning]

/-- The `inmail_and_invite_separator` loop body only ever reports
errors. -/
theorem processSplitFile_no_warning (f : File) :
    ∀ m ∈ (processSplitFile f).2, m.isWarning = false := by
  intro m hm
  unfold processSplitFile at hm
  split at hm
  · simp_all [Msg.isWarning]
  · simp_all [Msg.isWarning]
  · split at hm <;> simp_all [Msg.isWarning]

/-- Every download entry built for one split file is nonempty. -/
theorem splitEntriesOf_nonempty (f : File) (p : Table × Table) :
    ∀ e ∈ splitEntriesOf f p, e.2.rows ≠ [] := by
  intro e he
  unfold splitEntriesOf at he
  rcases List.mem_append.mp he with h | h
  · by_cases hemp : p.1.rows.isEmpty
    · rw [if_pos hemp] at h
      cases h
    · rw [if_neg hemp] at h
      simp at h
      subst h
      intro hnil
      apply hemp
      have h2 : p.1.rows = [] := hnil
      rw [h2]
      rfl
  · by_cases hemp : p.2.rows.isEmpty
    · rw [if_pos hemp] at h
      cases h
    · rw [if_neg hemp] at h
      simp at h
      subst h
      intro hnil
      apply hemp
      have h2 : p.2.rows = [] := hnil
      rw [h2]
      rfl

/-- The file with an empty (zero-row) table used against C7. -/
def fileC7 : File := ⟨"a.csv", some ⟨["full_name"], []⟩⟩

/-- Counterexample to C7 as stated: for an input whose cleaned result has
zero rows, the Clean Single Files flow produces no download entry but
also reports nothing at all — in particular no warning, while the claim
requires one. -/
theorem clean_single_empty_result_silent :
    processAndCleanSingle fileC7 = (some ⟨["full_name"], []⟩, []) ∧
    cleanSingleFlow [fileC7] = ([], []) := by decide

/-- C7 amended: in each batch mode an input whose result has zero rows
produces no downloadable file (every emitted entry has at least one row),
but no warning is reported for it — the batch loops emit only error
messages. -/
theorem batch_empty_results_no_file_no_warning :
    (∀ fs : List File,
      (∀ e ∈ (cleanSingleFlow fs).1, e.2.rows ≠ []) ∧
      (∀ m ∈ (cleanSingleFlow fs).2, m.isWarning = false)) ∧
    (∀ (ref : Table) (fs : List File),
      (∀ e ∈ checkedZipEntries ref fs, e.2.rows ≠ []) ∧
      (∀ m ∈ (checkAndClean ref fs).2, m.isWarning = false)) ∧
    (∀ fs : List File,
      (∀ e ∈ (splitFlow fs).1, e.2.rows ≠ []) ∧
      (∀ m ∈ (splitFlow fs).2, m.isWarning = false)) := by
  refine ⟨?_, ?_, ?_⟩
  · intro fs
    induction fs with
    | nil => simp [cleanSingleFlow]
    | cons f fs ih =>
      constructor
      · intro e he
        unfold cleanSingleFlow at he
        rcases List.mem_append.mp he with h | h
        · rcases hres : (processAndCleanSingle f).1 with _ | t <;>
            rw [hres] at h
          · simp at h
          · by_cases hemp : t.rows.isEmpty
            · simp [hemp] at h
            · simp [hemp] at h
              subst h
              intro hnil
              apply hemp
              have h2 : t.rows = [] := hnil
              rw [h2]
              rfl
        · exact ih.1 e h
      · intro m hm
        unfold cleanSingleFlow at hm
        rcases List.mem_append.mp hm with h | h
        · exact processAndCleanSingle_no_warning f m h
        · exact ih.2 m h
  · intro ref fs
    constructor
    · intro e he
      unfold checkedZipEntries at he
      obtain ⟨p, hp, hf⟩ := List.mem_filterMap.mp he
      by_cases hemp : p.2.rows.isEmpty
      · rw [if_pos hemp] at hf
        cases hf
      · rw [if_neg hemp] at hf
        injection hf with hf
        subst hf
        intro hnil
        apply hemp
        have h2 : p.2.rows = [] := hnil
        rw [h2]
        rfl
    · induction fs with
      | nil => simp [checkAndClean]
      | cons f fs ih =>
        intro m hm
        unfold checkAndClean at hm
        rcases List.mem_append.mp hm with h | h
        · exact processCheckFile_no_warning ref f m h
        · exact ih m h
  · intro fs
    induction fs with
    | nil => simp [splitFlow]
    | cons f fs ih =>
      constructor
      · intro e he
        unfold splitFlow at he
        rcases List.mem_append.mp he with h | h
        · rcases hres : (processSplitFile f).1 with _ | p <;> rw [hres] at h
          · simp at h
          · exact splitEntriesOf_nonempty f p e h
        · exact ih.1 e h
      · intro m hm
        unfold splitFlow at hm
        rcases List.mem_append.mp hm with h | h
        · exact processSplitFile_no_warning f m h
        · exact ih.2 m h

/-- A file whose cleaned result is nonempty, used to witness C7. -/
def fileC7b : File :=
  ⟨"b.csv", some ⟨["full_name"], [[("full_name", Value.str "B")]]⟩⟩

/-- Witness for the amended C7: the single entry emitted for `fileC7b`
has a nonempty table. -/
theorem batch_empty_results_no_file_no_warning_witness :
    (("b_CLEAN.csv",
      Table.mk ["full_name"] [[("full_name", Value.str "B")]]) :
      String × Table).2.rows ≠ [] :=
  (batch_empty_results_no_file_no_warning.1 [fileC7b]).1 _ (by decide)

/-- A parse failure anywhere in the list aborts the accumulation loop
with no combined table, from any accumulator. -/
theorem combineAux_parse_abort (fs : List File) :
    ∀ acc : Table, (∃ f ∈ fs, readFile f = ReadResult.parseFailed) →
      (combineAux acc fs).1 = none := by
  induction fs with
  | nil => simp
  | cons f fs ih =>
    intro acc ⟨g, hg, hgp⟩
    rcases List.mem_cons.mp hg with rfl | hg
    · rw [combineAux, hgp]
    · cases hr : readFile f
      · rw [combineAux, hr]
        exact ih _ ⟨g, hg, hgp⟩
      · rw [combineAux, hr]
        exact ih _ ⟨g, hg, hgp⟩
      · rw [combineAux, hr]

/-- Prepending a message to the loop output commutes with the final
empty-check/dedup step of `process_and_combine`. -/
theorem combineFinish_cons_msg (r : Option Table) (ms : List Msg) (e : Msg) :
    combineFinish (r, e :: ms) =
      ((combineFinish (r, ms)).1, e :: (combineFinish (r, ms)).2) := by
  cases r with
  | none => rfl
  | some d =>
    unfold combineFinish
    by_cases he : d.rows.isEmpty
    · simp [he]
    · cases hd : dedup d <;> simp [he, hd]

/-- C9: in Combine-and-Clean, a parse failure on any source file makes the
whole run produce no combined table, while an unsupported extension only
adds one reported error and leaves the result of the remaining files
unchanged. -/
theorem combine_error_policy :
    (∀ fs : List File, (∃ f ∈ fs, readFile f = ReadResult.parseFailed) →
      (processAndCombine fs).1 = none) ∧
    (∀ (f : File) (fs : List File), readFile f = ReadResult.unsupported →
      processAndCombine (f :: fs) =
        ((processAndCombine fs).1,
         Msg.error ("Unsupported file type: " ++ f.name) ::
           (processAndCombine fs).2)) := by
  constructor
  · intro fs hex
    have h := combineAux_parse_abort fs emptyTable hex
    unfold processAndCombine
    rcases hc : combineAux emptyTable fs with ⟨r, ms⟩
    rw [hc] at h
    simp at h
    subst h
    rfl
  · intro f fs hr
    unfold processAndCombine
    have hstep : combineAux emptyTable (f :: fs) =
        ((combineAux emptyTable fs).1,
         Msg.error ("Unsupported file type: " ++ f.name) ::
           (combineAux emptyTable fs).2) := by
      rw [combineAux, hr]
    rw [hstep]
    exact combineFinish_cons_msg _ _ _

/-- A file that fails to parse, used to witness C9. -/
def fileC9bad : File := ⟨"bad.csv", none⟩

/-- A file with an unsupported extension, used to witness C9. -/
def fileC9txt : File :=
  ⟨"notes.txt", some ⟨["full_name"], [[("full_name", Value.str "N")]]⟩⟩

/-- Witness for C9 at concrete files: the parse failure yields no
combined output; the `.txt` file only prepends an error. -/
theorem combine_error_policy_witness :
    (processAndCombine [fileC9bad]).1 = none ∧
    processAndCombine [fileC9txt] =
      ((processAndCombine ([] : List File)).1,
       Msg.error ("Unsupported file type: " ++ fileC9txt.name) ::
         (processAndCombine ([] : List File)).2) :=
  ⟨combine_error_policy.1 [fileC9bad] ⟨fileC9bad, by decide, by decide⟩,
   combine_error_policy.2 fileC9txt [] (by decide)⟩

/-- C10: deduplication and reference subtraction both return a table with
the input's column list unchanged and with rows forming a subsequence of
the input rows (unmodified rows, original relative order). -/
theorem dedup_subtract_subsequence :
    (∀ t t2 : Table, dedup t = some t2 →
      t2.cols = t.cols ∧ t2.rows.Sublist t.rows) ∧
    (∀ R C t2 : Table, subtract R C = some t2 →
      t2.cols = C.cols ∧ t2.rows.Sublist C.rows) := by
  constructor
  · exact dedup_cols_rows
  · intro R C t2 h
    unfold subtract at h
    split_ifs at h <;> injection h with h4 <;> subst h4 <;>
      exact ⟨rfl, List.filter_sublist _⟩

/-- The table used to witness C10. -/
def tC10 : Table :=
  ⟨["linkedin"], [[("linkedin", Value.str "x")], [("linkedin", Value.str "x")]]⟩

/-- Witness for C10: the deduplicated table keeps the columns and its
rows are a subsequence of the input rows. -/
theorem dedup_subtract_subsequence_witness :
    (Table.mk ["linkedin"] [[("linkedin", Value.str "x")]]).cols = tC10.cols ∧
    (Table.mk ["linkedin"] [[("linkedin", Value.str "x")]]).rows.Sublist
      tC10.rows :=
  dedup_subtract_subsequence.1 tC10
    ⟨["linkedin"], [[("linkedin", Value.str "x")]]⟩ (by decide)
